import Mathlib

/-!
Shallow embedding of the VVSFS core (src/vvsfs) in Lean 4, together with
theorems settling the claims C1..C10 about it.

Conventions of the embedding:
* C `uint32_t` values are modelled as `Nat`; where C performs modular or
  underflowing unsigned arithmetic, the reduction `% 2^32` is written
  explicitly at that spot.
* Disk blocks and bitmaps are byte buffers, modelled as `List Nat` with each
  element one byte (a `uint8_t` cell).
* A `memmove` whose source or destination range does not fit inside the
  1024-byte block buffer is undefined behaviour in the C source; the model
  returns `none` at exactly those calls.
* Fallible block reads (`sb_bread` returning NULL) are modelled by explicit
  oracles where a claim depends on them.
-/

set_option maxRecDepth 100000

namespace VVSFS

/-! ## Constants from vvsfs.h -/

def VVSFS_BLOCKSIZE : Nat := 1024

def VVSFS_N_BLOCKS : Nat := 15

def VVSFS_LAST_DIRECT_BLOCK_INDEX : Nat := VVSFS_N_BLOCKS - 1

def VVSFS_INDIRECT_PTR_SIZE : Nat := 4

def VVSFS_MAX_INDIRECT_PTRS : Nat := VVSFS_BLOCKSIZE / VVSFS_INDIRECT_PTR_SIZE

def VVSFS_MAX_INODE_BLOCKS : Nat := VVSFS_N_BLOCKS - 1 + VVSFS_MAX_INDIRECT_PTRS

def VVSFS_DENTRYSIZE : Nat := 128

def VVSFS_N_DENTRY_PER_BLOCK : Nat := VVSFS_BLOCKSIZE / VVSFS_DENTRYSIZE

def VVSFS_MAX_DENTRIES : Nat := VVSFS_N_DENTRY_PER_BLOCK * VVSFS_MAX_INODE_BLOCKS

def VVSFS_MAXNAME : Nat := 123

def VVSFS_SET_MAP_BIT : Nat := 128

def VVSFS_IMAP_SIZE : Nat := 512

def VVSFS_DMAP_SIZE : Nat := 2048

/-! ## Byte-buffer helpers (buffer_utils.c) -/

/-- `write_int_to_buffer(buf + off, data)`: store a `uint32_t` big-endian at
byte offset `off` of the buffer. -/
def write_int_to_buffer (buf : List Nat) (off : Nat) (data : Nat) : List Nat :=
  ((((buf.set off ((data >>> 24) &&& 255)).set (off + 1) ((data >>> 16) &&& 255)).set
      (off + 2) ((data >>> 8) &&& 255)).set (off + 3) (data &&& 255))

/-- `read_int_from_buffer(buf + off)`: read a `uint32_t` big-endian from byte
offset `off` of the buffer. -/
def read_int_from_buffer (buf : List Nat) (off : Nat) : Nat :=
  (buf.getD off 0) * 16777216 + (buf.getD (off + 1) 0) * 65536 +
    (buf.getD (off + 2) 0) * 256 + buf.getD (off + 3) 0

/-- C `memmove(buf + dst, buf + src, len)` on a byte buffer.  Returns `none`
when the transfer would touch bytes outside the buffer, which is undefined
behaviour in the source. -/
def memmoveBytes (buf : List Nat) (dst src len : Nat) : Option (List Nat) :=
  if dst + len ≤ buf.length ∧ src + len ≤ buf.length then
    some (buf.take dst ++ (buf.drop src).take len ++ buf.drop (dst + len))
  else none

/-- C `memmove` on the 15-element `uint32_t i_data` array, counted in
elements.  A read past the end of the array (undefined behaviour in the
source: it reads into the adjacent `vfs_inode` field) yields the word `oob`
that happens to sit there in memory. -/
def memmoveElems (l : List Nat) (dst src cnt oob : Nat) : List Nat :=
  l.take dst ++ ((l.drop src).take cnt ++ List.replicate (cnt - (l.length - src)) oob)
    ++ l.drop (dst + cnt)

/-! ## Bitmap allocator (vvsfs.h: vvsfs_find_free_block / vvsfs_free_block) -/

/-- The mask `0x80 >> j` used by the bitmap scanner (MSB-first bit order). -/
def mapBit (j : Nat) : Nat := VVSFS_SET_MAP_BIT >>> j

/-- Inner loop of `vvsfs_find_free_block` over bit positions `j, j+1, ...` of
byte `b` (with `fuel` iterations left).  `skipZero` is true for byte 0, where
the pair `i == 0 && j == 0` (the reserved position 0) is skipped.  The bit
test mirrors `(~map[i]) & (0x80 >> j)`. -/
def scanBitsFrom (b : Nat) (skipZero : Bool) : Nat → Nat → Option Nat
  | _, 0 => none
  | j, fuel + 1 =>
    if (!(skipZero && j == 0)) && (b &&& mapBit j == 0) then some j
    else scanBitsFrom b skipZero (j + 1) fuel

/-- Outer loop of `vvsfs_find_free_block` over the remaining bytes, `i` being
the index of the head byte.  Returns the byte/bit pair of the first free
position. -/
def scanBytesFrom : List Nat → Nat → Option (Nat × Nat)
  | [], _ => none
  | b :: rest, i =>
    match scanBitsFrom b (i == 0) 0 8 with
    | some j => some (i, j)
    | none => scanBytesFrom rest (i + 1)

/-- `vvsfs_find_free_block(map, size)`: find the first free position `≥ 1`,
set its bit and return it together with the updated map; return 0 and the
unchanged map when the bitmap is full.  The `size` argument of the C function
is the length of the byte list. -/
def vvsfs_find_free_block (map : List Nat) : Nat × List Nat :=
  match scanBytesFrom map 0 with
  | some (i, j) => (i * 8 + j, map.set i (map.getD i 0 ||| mapBit j))
  | none => (0, map)

/-- `vvsfs_free_block(map, pos)`: clear the bit of position `pos`
(`map[i] = map[i] & ~(0x80 >> j)` with `i = pos / 8`, `j = pos % 8`). -/
def vvsfs_free_block (map : List Nat) (pos : Nat) : List Nat :=
  map.set (pos / 8) (map.getD (pos / 8) 0 &&& (255 ^^^ mapBit (pos % 8)))

/-- Whether position `p` of the bitmap is set, under the source's MSB-first
convention: bit `j` of byte `i` represents position `i*8 + j`. -/
def mapTestPos (map : List Nat) (p : Nat) : Bool :=
  map.getD (p / 8) 0 &&& mapBit (p % 8) != 0

/-- Number of set positions of the bitmap. -/
def mapPopCount (map : List Nat) : Nat :=
  (List.range (8 * map.length)).countP (fun p => mapTestPos map p)

/-- A fresh bitmap as written by mkfs: all bytes zero except that the
reserved position 0 is set (`byte 0 = 0x80`). -/
def freshMap (len : Nat) : List Nat :=
  (List.replicate len 0).set 0 VVSFS_SET_MAP_BIT

/-- `vvsfs_reserve_data_block` is `vvsfs_find_free_block` on the data map. -/
def vvsfs_reserve_data_block (dmap : List Nat) : Nat × List Nat :=
  vvsfs_find_free_block dmap

/-- `vvsfs_free_data_block` is `vvsfs_free_block` on the data map. -/
def vvsfs_free_data_block (dmap : List Nat) (dno : Nat) : List Nat :=
  vvsfs_free_block dmap dno

/-! ## Inode block-array state and shift-back (namei.c) -/

/-- The state touched by the block-array compaction code: the in-memory inode
info (`i_db_count` and the 15-slot `i_data` array), the data bitmap, and the
byte contents of the block at `i_data[14]` (the buffer obtained by
`READ_BLOCK(sb, vi, VVSFS_LAST_DIRECT_BLOCK_INDEX)`). -/
structure ShiftState where
  i_db_count : Nat
  i_data : List Nat
  dmap : List Nat
  indirect : List Nat
  deriving DecidableEq, Repr

/-- `vvsfs_shift_direct_only(vi, block_index)` (namei.c:259).
`count = (--vi->i_db_count) - block_index`, then a `memmove` of the direct
slots and zeroing of the released slot. -/
def vvsfs_shift_direct_only (st : ShiftState) (block_index : Nat) : ShiftState :=
  let newCount := st.i_db_count - 1
  let cnt := newCount - block_index
  let d1 := if cnt > 0 then memmoveElems st.i_data block_index (block_index + 1) cnt 0
            else st.i_data
  { st with i_db_count := newCount, i_data := d1.set newCount 0 }

/-- `vvsfs_shift_indirect_only(vi, i_sb, bh, block_index)` (namei.c:292).
Note that the source uses the *logical* index `block_index` directly as the
byte-slot offset into the indirect block (`bh->b_data + block_index *
VVSFS_INDIRECT_PTR_SIZE`), and that when the decremented count equals
`VVSFS_N_BLOCKS` it frees the block at `i_data[14]` without clearing
`i_data[14]`. -/
def vvsfs_shift_indirect_only (st : ShiftState) (block_index : Nat) : Option ShiftState :=
  let newCount := st.i_db_count - 1
  let cnt := newCount - block_index
  match (if cnt > 0 then
           memmoveBytes st.indirect (block_index * VVSFS_INDIRECT_PTR_SIZE)
             ((block_index + 1) * VVSFS_INDIRECT_PTR_SIZE) (cnt * VVSFS_INDIRECT_PTR_SIZE)
         else some st.indirect) with
  | none => none
  | some buf1 =>
    if newCount == VVSFS_N_BLOCKS then
      some { st with
        i_db_count := newCount,
        indirect := buf1,
        dmap := vvsfs_free_data_block st.dmap (st.i_data.getD VVSFS_LAST_DIRECT_BLOCK_INDEX 0) }
    else
      some { st with
        i_db_count := newCount,
        indirect := write_int_to_buffer buf1
          ((newCount - VVSFS_LAST_DIRECT_BLOCK_INDEX) * VVSFS_INDIRECT_PTR_SIZE) 0 }

/-- `vvsfs_shift_blocks_back(vi, sb, i_sb, block_index)` (namei.c:350).

The cross-region branch follows the source statement by statement:
`replacement` is pointer 0 of the indirect block; the count of the direct
`memmove` is `VVSFS_N_BLOCKS - block_index` (reading one word past the end of
`i_data`, modelled by `oob`); the replacement is installed at
`i_data[VVSFS_LAST_DIRECT_BLOCK_INDEX - 2]`, i.e. index 12; when the
decremented count is 14 the value now held in `i_data[14]` is freed and the
slot cleared; otherwise the indirect `memmove` length is the `size_t` value
of the `uint32_t` expression `block_index - 14`, which underflows for
`block_index < 14`. -/
def vvsfs_shift_blocks_back (st : ShiftState) (block_index oob : Nat) : Option ShiftState :=
  if st.i_db_count < VVSFS_N_BLOCKS then
    some (vvsfs_shift_direct_only st block_index)
  else if block_index ≥ VVSFS_N_BLOCKS then
    vvsfs_shift_indirect_only st block_index
  else
    let replacement := read_int_from_buffer st.indirect 0
    let newCount := st.i_db_count - 1
    let cnt1 := VVSFS_N_BLOCKS - block_index
    let data1 := if block_index < VVSFS_LAST_DIRECT_BLOCK_INDEX then
                   memmoveElems st.i_data block_index (block_index + 1) cnt1 oob
                 else st.i_data
    let ind1 := if block_index < VVSFS_LAST_DIRECT_BLOCK_INDEX then
                  write_int_to_buffer st.indirect
                    ((newCount - VVSFS_LAST_DIRECT_BLOCK_INDEX) * VVSFS_INDIRECT_PTR_SIZE) 0
                else st.indirect
    let data2 := if block_index < VVSFS_LAST_DIRECT_BLOCK_INDEX then
                   data1.set (VVSFS_LAST_DIRECT_BLOCK_INDEX - 2) replacement
                 else data1
    if newCount == VVSFS_LAST_DIRECT_BLOCK_INDEX then
      some { i_db_count := newCount,
             i_data := data2.set VVSFS_LAST_DIRECT_BLOCK_INDEX 0,
             dmap := vvsfs_free_data_block st.dmap (data2.getD VVSFS_LAST_DIRECT_BLOCK_INDEX 0),
             indirect := ind1 }
    else
      let cnt2 := (block_index + 4294967296 - VVSFS_LAST_DIRECT_BLOCK_INDEX) % 4294967296
      match (if cnt2 > 0 then
               memmoveBytes ind1 0 VVSFS_INDIRECT_PTR_SIZE (cnt2 * VVSFS_INDIRECT_PTR_SIZE)
             else some ind1) with
      | none => none
      | some ind2 =>
        some { i_db_count := newCount,
               i_data := data2,
               dmap := st.dmap,
               indirect := write_int_to_buffer ind2
                 ((newCount - VVSFS_LAST_DIRECT_BLOCK_INDEX) * VVSFS_INDIRECT_PTR_SIZE) 0 }

/-- `vvsfs_index_data_block(vi, sb, d_pos)` (namei.c:734): direct slots are
read from `i_data`, indirect positions from the big-endian pointer array of
the block at `i_data[14]`. -/
def vvsfs_index_data_block (st : ShiftState) (d_pos : Nat) : Nat :=
  if d_pos < VVSFS_LAST_DIRECT_BLOCK_INDEX then st.i_data.getD d_pos 0
  else read_int_from_buffer st.indirect
    ((d_pos - VVSFS_LAST_DIRECT_BLOCK_INDEX) * VVSFS_INDIRECT_PTR_SIZE)

/-- `vvsfs_dealloc_data_block(inode, block_index)` (namei.c:439): bounds
check, resolve the data-bitmap position of the logical block, free it, then
shift the block arrays back. -/
def vvsfs_dealloc_data_block (st : ShiftState) (block_index oob : Nat) : Option ShiftState :=
  if block_index ≥ VVSFS_MAX_INODE_BLOCKS then none
  else
    let db := vvsfs_index_data_block st block_index
    vvsfs_shift_blocks_back { st with dmap := vvsfs_free_data_block st.dmap db } block_index oob

/-! ## Concrete states exercising the shift-back code -/

/-- An inode with `i_db_count = 15`: direct blocks `101..114` in
`i_data[0..13]`, indirect block at data-bitmap position 50 (`i_data[14]`),
whose pointer slot 0 holds 77 (the home of logical block 14).  The direct
data block at logical index 0 has just been freed. -/
def c1_state : ShiftState :=
  { i_db_count := 15,
    i_data := [101, 102, 103, 104, 105, 106, 107, 108, 109, 110, 111, 112, 113, 114, 50],
    dmap := [255, 255],
    indirect := (List.replicate 1024 0).set 3 77 }

/-- What the source computes on `c1_state`. -/
def c1_result : ShiftState :=
  { i_db_count := 14,
    i_data := [102, 103, 104, 105, 106, 107, 108, 109, 110, 111, 112, 113, 77, 50, 0],
    dmap := [127, 255],
    indirect := List.replicate 1024 0 }

/-- Like `c1_state` but with `i_db_count = 16` (a second indirect-resident
block, pointer 78 at slot 1). -/
def c1_state16 : ShiftState :=
  { i_db_count := 16,
    i_data := [101, 102, 103, 104, 105, 106, 107, 108, 109, 110, 111, 112, 113, 114, 50],
    dmap := [255, 255],
    indirect := ((List.replicate 1024 0).set 3 77).set 7 78 }

/-- An inode with `i_db_count = 17`: direct blocks `201..214`, indirect block
at position 60 with pointer slots `[71, 72, 73]` for logical blocks 14, 15,
16.  Logical block 15 (home 72) has just been freed. -/
def c2_state : ShiftState :=
  { i_db_count := 17,
    i_data := [201, 202, 203, 204, 205, 206, 207, 208, 209, 210, 211, 212, 213, 214, 60],
    dmap := [255, 255],
    indirect := (((List.replicate 1024 0).set 3 71).set 7 72).set 11 73 }

/-- What the source computes on `c2_state`. -/
def c2_result : ShiftState :=
  { i_db_count := 16,
    i_data := [201, 202, 203, 204, 205, 206, 207, 208, 209, 210, 211, 212, 213, 214, 60],
    dmap := [255, 255],
    indirect := ((List.replicate 1024 0).set 3 71).set 7 72 }

/-- An inode with `i_db_count = 16`: indirect block at position 60 with
pointer slots `[71, 72]`.  Logical block 15 (home 72) has just been freed;
the data bitmap has all of its first 64 positions set. -/
def c2_state16 : ShiftState :=
  { i_db_count := 16,
    i_data := [201, 202, 203, 204, 205, 206, 207, 208, 209, 210, 211, 212, 213, 214, 60],
    dmap := [255, 255, 255, 255, 255, 255, 255, 255],
    indirect := ((List.replicate 1024 0).set 3 71).set 7 72 }

/-- What the source computes on `c2_state16`. -/
def c2_result16 : ShiftState :=
  { i_db_count := 15,
    i_data := [201, 202, 203, 204, 205, 206, 207, 208, 209, 210, 211, 212, 213, 214, 60],
    dmap := [255, 255, 255, 255, 255, 255, 255, 247],
    indirect := ((List.replicate 1024 0).set 3 71).set 7 72 }

/-- The directory state reached after creating 121 entries in a fresh
directory: 14 direct blocks at data-bitmap positions `1..14`, indirect block
at position 15, whose slots 0 and 1 point to blocks 16 and 17 (logical
blocks 14 and 15).  Removing the 121st entry empties the last block, and the
removal path calls `vvsfs_dealloc_data_block(dir, i_db_count - 1 = 15)`. -/
def c3_state : ShiftState :=
  { i_db_count := 16,
    i_data := [1, 2, 3, 4, 5, 6, 7, 8, 9, 10, 11, 12, 13, 14, 15],
    dmap := [255, 255, 192],
    indirect := ((List.replicate 1024 0).set 3 16).set 7 17 }

/-- What the source computes on `c3_state`. -/
def c3_result : ShiftState :=
  { i_db_count := 15,
    i_data := [1, 2, 3, 4, 5, 6, 7, 8, 9, 10, 11, 12, 13, 14, 15],
    dmap := [255, 254, 128],
    indirect := ((List.replicate 1024 0).set 3 16).set 7 17 }

/-! ## Block assignment (namei.c: vvsfs_assign_data_block) and the file
block mapper (address_space.c: vvsfs_file_get_block) -/

def VVSFS_DATA_BLOCK_OFF : Nat := 4100

/-- `vvsfs_get_data_block(bno)`: disk block of a data-bitmap position. -/
def vvsfs_get_data_block (bno : Nat) : Nat := VVSFS_DATA_BLOCK_OFF + bno

/-- Result of `vvsfs_assign_data_block`: the returned data-block position on
success, `-ENOSPC` or `-EIO` on failure, together with the state it leaves
behind. -/
inductive AssignResult where
  | ok (newblock : Nat) (st : ShiftState)
  | nospc (st : ShiftState)
  | eio (st : ShiftState)
  deriving DecidableEq, Repr

/-- `vvsfs_assign_data_block(dir_info, sb, d_pos)` (namei.c:770).

`io_fail` is the oracle for the `READ_BLOCK(sb, dir_info,
VVSFS_LAST_DIRECT_BLOCK_INDEX)` call returning NULL.  `junk` is the value of
the local variable `indirect_block`, which the source leaves *uninitialized*
on the path where `i_db_count ≥ VVSFS_N_BLOCKS` and then frees in the error
branch. -/
def vvsfs_assign_data_block (st : ShiftState) (d_pos : Nat) (io_fail : Bool) (junk : Nat) :
    AssignResult :=
  let r1 := vvsfs_reserve_data_block st.dmap
  if r1.1 == 0 then .nospc st
  else if d_pos < VVSFS_LAST_DIRECT_BLOCK_INDEX then
    .ok r1.1 { st with
      dmap := r1.2,
      i_data := st.i_data.set d_pos r1.1,
      i_db_count := st.i_db_count + 1 }
  else if st.i_db_count < VVSFS_N_BLOCKS then
    let indirect_block := r1.1
    let r2 := vvsfs_reserve_data_block r1.2
    if r2.1 == 0 then .nospc { st with dmap := vvsfs_free_data_block r1.2 indirect_block }
    else if io_fail then
      .eio { st with
        dmap := vvsfs_free_data_block (vvsfs_free_data_block r2.2 r2.1) indirect_block,
        i_data := (st.i_data.set VVSFS_LAST_DIRECT_BLOCK_INDEX indirect_block).set
          VVSFS_LAST_DIRECT_BLOCK_INDEX 0 }
    else
      .ok r2.1 { st with
        dmap := r2.2,
        i_data := st.i_data.set VVSFS_LAST_DIRECT_BLOCK_INDEX indirect_block,
        i_db_count := st.i_db_count + 1,
        indirect := write_int_to_buffer st.indirect
          ((d_pos - VVSFS_LAST_DIRECT_BLOCK_INDEX) * VVSFS_INDIRECT_PTR_SIZE) r2.1 }
  else if io_fail then
    .eio { st with
      dmap := vvsfs_free_data_block (vvsfs_free_data_block r1.2 r1.1) junk,
      i_data := st.i_data.set VVSFS_LAST_DIRECT_BLOCK_INDEX 0 }
  else
    .ok r1.1 { st with
      dmap := r1.2,
      i_db_count := st.i_db_count + 1,
      indirect := write_int_to_buffer st.indirect
        ((d_pos - VVSFS_LAST_DIRECT_BLOCK_INDEX) * VVSFS_INDIRECT_PTR_SIZE) r1.1 }

/-- Result of `vvsfs_file_get_block`: `-EFBIG`, a zero return without
mapping, a mapped disk block, or a propagated allocation error. -/
inductive GetBlockResult where
  | efbig
  | zero (st : ShiftState)
  | mapped (bno : Nat) (st : ShiftState)
  | err (st : ShiftState)
  deriving DecidableEq, Repr

/-- `vvsfs_file_get_block(inode, iblock, bh, create)` (address_space.c:34). -/
def vvsfs_file_get_block (st : ShiftState) (iblock : Nat) (create io_fail : Bool)
    (junk : Nat) : GetBlockResult :=
  if iblock ≥ VVSFS_MAX_INODE_BLOCKS then .efbig
  else if iblock > st.i_db_count then .zero st
  else if iblock = st.i_db_count then
    if create = false then .zero st
    else
      match vvsfs_assign_data_block st iblock io_fail junk with
      | .ok nb st1 => .mapped (vvsfs_get_data_block nb) st1
      | .nospc st1 => .err st1
      | .eio st1 => .err st1
  else .mapped (vvsfs_get_data_block (vvsfs_index_data_block st iblock)) st

/-- An inode with `i_db_count = 15` and a pre-existing indirect block at
data-bitmap position 9 (`i_data[14] = 9`); bitmap positions 0..15 are
allocated, position 16 is the first free one. -/
def c6_state : ShiftState :=
  { i_db_count := 15,
    i_data := [1, 2, 3, 4, 5, 6, 7, 8, 9, 10, 11, 12, 13, 14, 9],
    dmap := [255, 255, 0],
    indirect := List.replicate 1024 0 }

/-- What the source computes on `c6_state` when the indirect-block read
fails: position 16 (this call's reservation) is released, the garbage value
10 of the uninitialized `indirect_block` variable is freed, and `i_data[14]`
is zeroed. -/
def c6_result : ShiftState :=
  { i_db_count := 15,
    i_data := [1, 2, 3, 4, 5, 6, 7, 8, 9, 10, 11, 12, 13, 14, 0],
    dmap := [255, 223, 0],
    indirect := List.replicate 1024 0 }

/-- An inode with `i_db_count = 14` and no indirect block yet; bitmap
positions 0..14 are allocated.  The block at the future `i_data[14]` carries
a stale byte 99 at offset 100 from its previous use. -/
def c6f_state : ShiftState :=
  { i_db_count := 14,
    i_data := [1, 2, 3, 4, 5, 6, 7, 8, 9, 10, 11, 12, 13, 14, 0],
    dmap := [255, 254, 0],
    indirect := (List.replicate 1024 0).set 100 99 }

/-- What the source computes on `c6f_state`: position 15 becomes the
indirect block, position 16 the payload; pointer slot 0 is written but the
rest of the repurposed block keeps its stale contents. -/
def c6f_result : ShiftState :=
  { i_db_count := 15,
    i_data := [1, 2, 3, 4, 5, 6, 7, 8, 9, 10, 11, 12, 13, 14, 15],
    dmap := [255, 255, 128],
    indirect := ((List.replicate 1024 0).set 100 99).set 3 16 }

/-- A small inode state for exercising `c7_file_get_block_boundaries`. -/
def c7_state : ShiftState :=
  { i_db_count := 1,
    i_data := [1, 0, 0, 0, 0, 0, 0, 0, 0, 0, 0, 0, 0, 0, 0],
    dmap := [255],
    indirect := [] }

/-! ## Directory entries and entry search (vvsfs.h: namecmp; namei.c:
vvsfs_find_entry_in_block) -/

/-- A 128-byte on-disk directory entry: the 124-byte NUL-terminated `name`
field (modelled as its byte list) and the `inode_number`. -/
structure DirEntry where
  name : List Nat
  inode_number : Nat
  deriving DecidableEq, Repr

/-- C `strlen` on the NUL-terminated name field. -/
def cstrlen : List Nat → Nat
  | [] => 0
  | b :: rest => if b = 0 then 0 else cstrlen rest + 1

/-- `namecmp(name, target_name, target_name_len)` (vvsfs.h:178):
`strlen(name) == target_name_len && strncmp(name, target_name,
target_name_len) == 0`.  The searched name is its exact byte list, so
`target_name_len` is `target.length`.  When the length test passes the first
`target.length` bytes of `name` contain no NUL, and `strncmp` agreeing on
them is exactly `name.take target.length = target`. -/
def namecmp (name target : List Nat) : Bool :=
  cstrlen name == target.length && name.take target.length == target

/-- The skip condition of `vvsfs_find_entry_in_block` (namei.c:59), written
in the source as `!inumber || !namecmp(name, target_name, target_name_len)
!= 0`.  Since `!` binds tighter than `!=`, this is `inumber == 0 ||
(!namecmp(...)) != 0`: skip when the inode number is 0 or the names do not
match. -/
def findEntrySkip (e : DirEntry) (target : List Nat) : Bool :=
  e.inode_number == 0 || !(namecmp e.name target)

/-- The dentry loop of `vvsfs_find_entry_in_block` (namei.c:47) over the
examined dentries, `d` the slot index of the head entry; returns the slot
index of the first entry that is not skipped. -/
def findEntryFrom : List DirEntry → List Nat → Nat → Option Nat
  | [], _, _ => none
  | e :: rest, target, d =>
    if findEntrySkip e target then findEntryFrom rest target (d + 1) else some d

/-- `vvsfs_find_entry_in_block(bh, dentry_count, i, target_name,
target_name_len, flags, out_loc)` (namei.c:36), reduced to the slot index it
reports: the argument list holds the `dentry_count` examined slots of the
block. -/
def vvsfs_find_entry_in_block (entries : List DirEntry) (target : List Nat) : Option Nat :=
  findEntryFrom entries target 0

/-- The match condition of claim C8: nonzero inode number, equal name
lengths, and equal name bytes. -/
def entryMatches (e : DirEntry) (target : List Nat) : Prop :=
  e.inode_number ≠ 0 ∧ cstrlen e.name = target.length ∧ e.name.take target.length = target

instance (e : DirEntry) (target : List Nat) : Decidable (entryMatches e target) := by
  unfold entryMatches
  infer_instance

/-- Concrete directory block: a tombstone named "b", an entry "a", then the
entry "b" searched for. -/
def c8_entries : List DirEntry :=
  [⟨[98, 0], 0⟩, ⟨[97, 0], 7⟩, ⟨[98, 0], 9⟩]

/-! ## Empty-directory check and rmdir (vvsfs.h: IS_NON_RESERVED_DENTRY;
namei.c: vvsfs_dir_only_reserved, vvsfs_empty_dir, vvsfs_rmdir) -/

/-- `IS_NON_RESERVED_DENTRY(name, inumber, inode)` (vvsfs.h:117), literally:
`inumber != 0 && (name[0] != '.' || (!name[1] && inumber != inode->i_ino) ||
name[1] != '.' || name[2])`.  `'.'` is byte 46. -/
def is_non_reserved_dentry (name : List Nat) (inumber dirIno : Nat) : Bool :=
  inumber != 0 &&
    (name.getD 0 0 != 46 || (name.getD 1 0 == 0 && inumber != dirIno) ||
      name.getD 1 0 != 46 || name.getD 2 0 != 0)

/-- `vvsfs_dir_only_reserved(bh, dir, dentry_count)` (namei.c:1407): walk
the examined dentries, return 0 (false) on the first non-reserved one. -/
def vvsfs_dir_only_reserved (entries : List DirEntry) (dirIno : Nat) : Bool :=
  entries.all (fun e => !is_non_reserved_dentry e.name e.inode_number dirIno)

/-- `LAST_BLOCK_DENTRY_COUNT(dir, count)` (vvsfs.h:104). -/
def last_block_dentry_count (i_size : Nat) : Nat :=
  let c := (i_size / VVSFS_DENTRYSIZE) % VVSFS_N_DENTRY_PER_BLOCK
  if c = 0 then VVSFS_N_DENTRY_PER_BLOCK else c

/-- The directory state read by `vvsfs_empty_dir`: the mode's directory bit,
the inode number, `i_size`, `i_db_count`, and for every loop index `i` the
dentries of the block the loop reads for it (`none` models a failed
`READ_BLOCK`). -/
structure DirState where
  isDir : Bool
  i_ino : Nat
  i_size : Nat
  i_db_count : Nat
  blocks : List (Option (List DirEntry))
  deriving DecidableEq, Repr

/-- Number of dentries `vvsfs_empty_dir` examines in block `i`: the
last-block count for the final block, 8 otherwise. -/
def examinedCount (d : DirState) (i : Nat) : Nat :=
  if i = d.i_db_count - 1 then last_block_dentry_count d.i_size else VVSFS_N_DENTRY_PER_BLOCK

/-- The block loop of `vvsfs_empty_dir` (namei.c:1465) over the remaining
loop indices: `-EIO` on a failed read, 0 on the first block holding a
non-reserved dentry, 1 when the walk completes. -/
def emptyDirGo (d : DirState) : List Nat → Int
  | [] => 1
  | i :: rest =>
    match d.blocks.getD i none with
    | none => -5
    | some entries =>
      if vvsfs_dir_only_reserved (entries.take (examinedCount d i)) d.i_ino then
        emptyDirGo d rest
      else 0

/-- `vvsfs_empty_dir(dir)` (namei.c:1441): `-ENOTDIR` on a non-directory,
otherwise the block walk. -/
def vvsfs_empty_dir (d : DirState) : Int :=
  if d.isDir = false then -20 else emptyDirGo d (List.range d.i_db_count)

/-- Outcome of the emptiness gate in `vvsfs_rmdir` (namei.c:1505). -/
inductive RmdirOutcome where
  | notEmpty
  | proceeds
  deriving DecidableEq, Repr

/-- The gate of `vvsfs_rmdir`: `if (!vvsfs_empty_dir(inode)) return
-ENOTEMPTY;` — it refuses exactly when the check returns 0 and otherwise
goes on to unlink the directory. -/
def vvsfs_rmdir_check (d : DirState) : RmdirOutcome :=
  if vvsfs_empty_dir d = 0 then .notEmpty else .proceeds

/-- A directory whose single block read fails. -/
def c10_dir : DirState :=
  { isDir := true, i_ino := 2, i_size := 128, i_db_count := 1, blocks := [none] }

/-! ## Claim C4: the reserved-dentry predicate -/

/-- The reserved condition exactly as claim C4 words it: the slot is
reserved when its inode number is 0, or its name is "." with the inode
number equal to the directory's own, or its name is "..". -/
def c4_claim_reserved (name : List Nat) (inumber dirIno : Nat) : Bool :=
  inumber == 0
  || (name.getD 0 0 == 46 && name.getD 1 0 == 0 && inumber == dirIno)
  || (name.getD 0 0 == 46 && name.getD 1 0 == 46 && name.getD 2 0 == 0)

/-- The name field holding ".". -/
def c4_dot_name : List Nat := [46, 0]

/-- A directory whose single examined slot is the entry "." carrying the
directory's own inode number 5. -/
def c4_dir : DirState :=
  { isDir := true, i_ino := 5, i_size := 128, i_db_count := 1,
    blocks := [some [⟨c4_dot_name, 5⟩]] }

/-- A directory with two plain entries in its single examined block. -/
def c4w_dir : DirState :=
  { isDir := true, i_ino := 3, i_size := 256, i_db_count := 1,
    blocks := [some [⟨[120, 0], 4⟩, ⟨[121, 0], 5⟩]] }

/-! ## Rename (namei.c: vvsfs_rename) -/

/-- The inputs the guard chain of `vvsfs_rename` inspects: the three rename
flags, whether `d_inode(new_dentry)` exists and the two inode numbers, the
new name's length, the two modes' directory bits, and the value
`vvsfs_empty_dir(new_inode)` would return. -/
structure RenameReq where
  flag_exchange : Bool
  flag_whiteout : Bool
  flag_noreplace : Bool
  new_exists : Bool
  old_ino : Nat
  new_ino : Nat
  new_name_len : Nat
  old_isdir : Bool
  new_isdir : Bool
  new_empty_result : Int
  deriving DecidableEq, Repr

/-- Outcome of the guard chain of `vvsfs_rename`: an error, the same-inode
early `return 0`, or falling through to the dentry manipulation. -/
inductive RenameOutcome where
  | err (e : Int)
  | noop
  | proceed
  deriving DecidableEq, Repr

/-- The guard chain of `vvsfs_rename` (namei.c:1686), statement by
statement: reject `RENAME_EXCHANGE`/`RENAME_WHITEOUT` with `-EINVAL`; if old
and new are the same inode, return 0; name length over 123 is
`-ENAMETOOLONG`; an existing target with `RENAME_NOREPLACE` is `-EEXIST`;
a directory source over an existing target requires an *empty directory*
target (`-ENOTEMPTY` / `-ENOTDIR`), where "non-empty" is
`vvsfs_empty_dir(new_inode) == 0`; a non-directory source cannot replace a
directory (`-EISDIR`). -/
def vvsfs_rename_check (r : RenameReq) : RenameOutcome :=
  if r.flag_exchange || r.flag_whiteout then .err (-22)
  else if r.new_exists && r.new_ino == r.old_ino then .noop
  else if r.new_name_len > VVSFS_MAXNAME then .err (-36)
  else if r.new_exists && r.flag_noreplace then .err (-17)
  else if r.new_exists && r.old_isdir && (r.new_isdir && r.new_empty_result == 0) then
    .err (-39)
  else if r.new_exists && r.old_isdir && !r.new_isdir then .err (-20)
  else if !r.old_isdir && r.new_exists && r.new_isdir then .err (-21)
  else .proceed

/-- A rename request in which the target exists, resolves to the same inode
3 as the source, and `RENAME_NOREPLACE` is set. -/
def c5_req : RenameReq :=
  { flag_exchange := false, flag_whiteout := false, flag_noreplace := true,
    new_exists := true, old_ino := 3, new_ino := 3, new_name_len := 1,
    old_isdir := false, new_isdir := false, new_empty_result := 1 }

/-- Like `c5_req` but with a different target inode. -/
def c5w_req : RenameReq :=
  { flag_exchange := false, flag_whiteout := false, flag_noreplace := true,
    new_exists := true, old_ino := 3, new_ino := 4, new_name_len := 1,
    old_isdir := false, new_isdir := false, new_empty_result := 1 }

/-- One call of the bitmap allocator's interface: `vvsfs_find_free_block`
(a reservation) or `vvsfs_free_block p`. -/
inductive BmOp where
  | reserve
  | free (p : Nat)
  deriving DecidableEq, Repr

/-- Run a sequence of allocator calls against a bitmap. -/
def bmRun : List Nat → List BmOp → List Nat
  | m, [] => m
  | m, .reserve :: ops => bmRun (vvsfs_find_free_block m).2 ops
  | m, .free p :: ops => bmRun (vvsfs_free_block m p) ops

/-- Well-formedness of a call sequence, as the allocator's contract demands
of its callers: every reservation succeeds and every free hits a currently
set position other than the reserved position 0 (the source never
double-frees and never frees position 0). -/
def bmValid : List Nat → List BmOp → Bool
  | _, [] => true
  | m, .reserve :: ops =>
    ((vvsfs_find_free_block m).1 != 0) && bmValid (vvsfs_find_free_block m).2 ops
  | m, .free p :: ops =>
    (p != 0) && decide (p < 8 * m.length) && mapTestPos m p &&
      bmValid (vvsfs_free_block m p) ops

def countReserves : List BmOp → Nat
  | [] => 0
  | .reserve :: ops => countReserves ops + 1
  | .free _ :: ops => countReserves ops

def countFrees : List BmOp → Nat
  | [] => 0
  | .reserve :: ops => countFrees ops
  | .free _ :: ops => countFrees ops + 1

/-- Two reservations and one free on a one-byte fresh bitmap. -/
def c9_ops : List BmOp := [.reserve, .reserve, .free 1]

/-! ## Theorems -/

/-- C1: the cross-region shift-back does not behave as claimed.  On
`c1_state` (count 15, freeing direct index 0) the code installs the promoted
pointer 77 at `i_data[12]` — not at the last direct slot `i_data[13]`, which
instead receives the old indirect-block pointer 50 dragged down by the
oversized `memmove` of `15 - block_index` words — and then frees whatever the
out-of-bounds word left in `i_data[14]` (here 0, clearing the reserved bitmap
position 0).  With count 16 the indirect-pointer `memmove` length underflows
(`block_index - 14` as unsigned) and overruns the 1024-byte block, modelled
as `none`. -/
theorem c1_shift_blocks_back_cross_region_bug :
    vvsfs_shift_blocks_back c1_state 0 0 = some c1_result
    ∧ read_int_from_buffer c1_state.indirect 0 = 77
    ∧ c1_result.i_data.getD 12 0 = 77
    ∧ c1_result.i_data.getD 13 0 = 50
    ∧ c1_state.i_data.getD 14 0 = 50
    ∧ mapTestPos c1_state.dmap 0 = true
    ∧ mapTestPos c1_result.dmap 0 = false
    ∧ vvsfs_shift_blocks_back c1_state16 0 0 = none := by
  decide

/-- C2: the indirect-only shift-back does not behave as claimed.  On
`c2_state` (count 17, freeing logical block 15) the code `memmove`s from byte
offset `(block_index+1)*4` — using the *logical* index 15 instead of the slot
index `block_index - 14` — so the hole at slot 1 keeps the stale pointer 72
of the freed block while the live pointer 73 of logical block 16 is zeroed
away as the "trailing" slot.  On `c2_state16` (count 16, freeing logical
block 15) the decremented count is 15, and the code frees the indirect block
(bitmap position 60) while its slot 0 still carries logical block 14's
pointer 71, and leaves `i_data[14] = 60` in place instead of clearing it. -/
theorem c2_shift_indirect_only_bug :
    vvsfs_shift_blocks_back c2_state 15 0 = some c2_result
    ∧ read_int_from_buffer c2_result.indirect 4 = 72
    ∧ read_int_from_buffer c2_result.indirect 8 = 0
    ∧ read_int_from_buffer c2_state.indirect 8 = 73
    ∧ vvsfs_shift_blocks_back c2_state16 15 0 = some c2_result16
    ∧ c2_result16.i_db_count = 15
    ∧ c2_result16.i_data.getD 14 0 = 60
    ∧ mapTestPos c2_state16.dmap 60 = true
    ∧ mapTestPos c2_result16.dmap 60 = false
    ∧ read_int_from_buffer c2_result16.indirect 0 = 71 := by
  decide

/-- C3: the remove path breaks the directory density invariant at a
16-block directory.  Deallocating logical block 15 (the step performed when
removing the 121st entry of a directory) frees the payload block 17, but the
shift-back then *also* frees the indirect block (position 15) because the
decremented count equals `VVSFS_N_BLOCKS`, even though `i_data[14] = 15`
still references it and its slot 0 still maps logical block 14 (the home of
dentry slots 112..119) to block 16.  The next `vvsfs_reserve_data_block`
first-fit scan returns the freed position 15 again, so the subsequent add
writes a dentry into the directory's own live indirect block, destroying the
pointer array under the first `i_size/128` dentry slots. -/
theorem c3_dealloc_breaks_directory_density :
    vvsfs_dealloc_data_block c3_state 15 0 = some c3_result
    ∧ c3_result.i_db_count = 15
    ∧ c3_result.i_data.getD 14 0 = 15
    ∧ mapTestPos c3_state.dmap 15 = true
    ∧ mapTestPos c3_result.dmap 15 = false
    ∧ read_int_from_buffer c3_result.indirect 0 = 16
    ∧ (vvsfs_reserve_data_block c3_result.dmap).1 = 15 := by
  decide

/-- C6: `vvsfs_assign_data_block` does not have the claimed atomicity.  On
`c6_state` (pre-existing indirect block 9, I/O failure reading it) the error
path frees the *uninitialized* local `indirect_block` — here the stack
garbage 10, a block belonging to the file's own data — and zeroes the
pre-existing `i_data[14]` instead of leaving it intact, while the real
indirect block 9 stays allocated.  On `c6f_state` (fresh indirect block,
success path) the repurposed block is *not* zeroed: the stale byte 99 at
offset 100 survives next to the freshly written pointer slot. -/
theorem c6_assign_data_block_bug :
    vvsfs_assign_data_block c6_state 15 true 10 = .eio c6_result
    ∧ c6_state.i_data.getD 14 0 = 9
    ∧ c6_result.i_data.getD 14 0 = 0
    ∧ mapTestPos c6_state.dmap 10 = true
    ∧ mapTestPos c6_result.dmap 10 = false
    ∧ mapTestPos c6_result.dmap 9 = true
    ∧ c6_result.i_db_count = c6_state.i_db_count
    ∧ vvsfs_assign_data_block c6f_state 14 false 0 = .ok 16 c6f_result
    ∧ c6f_result.indirect.getD 100 0 = 99
    ∧ c6f_result.i_data.getD 14 0 = 15 := by
  decide

/-- C7: boundary behaviour of the block mapper, as claimed: `b ≥ 270` fails
with `-EFBIG`; `b > i_db_count` returns 0 without touching the state;
`b = i_db_count` without `create` returns 0 without touching the state; and
unless `b = i_db_count` with `create` set, the call never changes the state
(so a new block is allocated only in that case). -/
theorem c7_file_get_block_boundaries (st : ShiftState) (b : Nat) (create io_fail : Bool)
    (junk : Nat) :
    (b ≥ VVSFS_MAX_INODE_BLOCKS →
      vvsfs_file_get_block st b create io_fail junk = .efbig)
    ∧ (b < VVSFS_MAX_INODE_BLOCKS → b > st.i_db_count →
      vvsfs_file_get_block st b create io_fail junk = .zero st)
    ∧ (b < VVSFS_MAX_INODE_BLOCKS → b = st.i_db_count → create = false →
      vvsfs_file_get_block st b create io_fail junk = .zero st)
    ∧ (¬(b = st.i_db_count ∧ create = true) →
      vvsfs_file_get_block st b create io_fail junk = .efbig
      ∨ vvsfs_file_get_block st b create io_fail junk = .zero st
      ∨ ∃ bno, vvsfs_file_get_block st b create io_fail junk = .mapped bno st) := by
  refine ⟨?_, ?_, ?_, ?_⟩
  · intro h
    unfold vvsfs_file_get_block
    rw [if_pos h]
  · intro h1 h2
    unfold vvsfs_file_get_block
    rw [if_neg (by omega), if_pos h2]
  · intro h1 h2 h3
    unfold vvsfs_file_get_block
    rw [if_neg (by omega), if_neg (by omega), if_pos h2, if_pos h3]
  · intro h
    by_cases h1 : b ≥ VVSFS_MAX_INODE_BLOCKS
    · exact Or.inl (by unfold vvsfs_file_get_block; rw [if_pos h1])
    · by_cases h2 : b > st.i_db_count
      · exact Or.inr (Or.inl (by unfold vvsfs_file_get_block; rw [if_neg h1, if_pos h2]))
      · by_cases h3 : b = st.i_db_count
        · have hc : create = false := by
            cases create
            · rfl
            · exact absurd ⟨h3, rfl⟩ h
          exact Or.inr (Or.inl (by
            unfold vvsfs_file_get_block
            rw [if_neg h1, if_neg h2, if_pos h3, if_pos hc]))
        · exact Or.inr (Or.inr ⟨vvsfs_get_data_block (vvsfs_index_data_block st b), by
            unfold vvsfs_file_get_block
            rw [if_neg h1, if_neg h2, if_neg h3]⟩)

theorem c7_file_get_block_boundaries_witness :
    vvsfs_file_get_block c7_state 270 true false 0 = .efbig
    ∧ vvsfs_file_get_block c7_state 5 true false 0 = .zero c7_state
    ∧ vvsfs_file_get_block c7_state 1 false false 0 = .zero c7_state :=
  ⟨(c7_file_get_block_boundaries c7_state 270 true false 0).1 (by decide),
   (c7_file_get_block_boundaries c7_state 5 true false 0).2.1 (by decide) (by decide),
   (c7_file_get_block_boundaries c7_state 1 false false 0).2.2.1 (by decide) rfl rfl⟩

theorem findEntrySkip_eq_false_iff (e : DirEntry) (target : List Nat) :
    findEntrySkip e target = false ↔ entryMatches e target := by
  simp [findEntrySkip, entryMatches, namecmp, and_assoc]

theorem findEntryFrom_none_iff (target : List Nat) :
    ∀ (l : List DirEntry) (d : Nat),
      findEntryFrom l target d = none ↔ ∀ e ∈ l, ¬entryMatches e target := by
  intro l
  induction l with
  | nil => simp [findEntryFrom]
  | cons e rest ih =>
    intro d
    by_cases hs : findEntrySkip e target
    · rw [findEntryFrom, if_pos hs, ih (d + 1)]
      have he : ¬entryMatches e target := by
        rw [← findEntrySkip_eq_false_iff]
        simp [hs]
      simp [he]
    · rw [findEntryFrom, if_neg hs]
      have he : entryMatches e target := (findEntrySkip_eq_false_iff e target).mp
        (by simpa using hs)
      simp [he]

theorem findEntryFrom_some_iff (target : List Nat) :
    ∀ (l : List DirEntry) (d i : Nat),
      findEntryFrom l target d = some i ↔
        ∃ k, i = d + k ∧ (∃ e, l.get? k = some e ∧ entryMatches e target) ∧
          ∀ e' ∈ l.take k, ¬entryMatches e' target := by
  intro l
  induction l with
  | nil => simp [findEntryFrom]
  | cons e rest ih =>
    intro d i
    by_cases hs : findEntrySkip e target
    · have he : ¬entryMatches e target := by
        rw [← findEntrySkip_eq_false_iff]
        simp [hs]
      rw [findEntryFrom, if_pos hs, ih (d + 1) i]
      constructor
      · rintro ⟨k, hi, ⟨e', hk, hm⟩, hfirst⟩
        refine ⟨k + 1, by omega, ⟨e', by simpa using hk, hm⟩, ?_⟩
        intro x hx
        rcases (List.mem_cons).mp (by simpa using hx) with hx0 | hx1
        · subst hx0; exact he
        · exact hfirst x hx1
      · rintro ⟨k, hi, ⟨e', hk, hm⟩, hfirst⟩
        cases k with
        | zero =>
          simp only [List.get?] at hk
          cases hk
          exact absurd hm he
        | succ k' =>
          refine ⟨k', by omega, ⟨e', by simpa using hk, hm⟩, ?_⟩
          intro x hx
          exact hfirst x (by simpa using List.mem_cons_of_mem e hx)
    · have he : entryMatches e target := (findEntrySkip_eq_false_iff e target).mp
        (by simpa using hs)
      rw [findEntryFrom, if_neg hs]
      constructor
      · intro h
        have hi : i = d := by
          simpa using h.symm
        exact ⟨0, by omega, ⟨e, rfl, he⟩, by simp⟩
      · rintro ⟨k, hi, ⟨e', hk, hm⟩, hfirst⟩
        cases k with
        | zero => simp [hi]
        | succ k' =>
          exact absurd he (hfirst e (by simp))

/-- C8: a slot is reported as the match exactly when its inode number is
nonzero, the stored name's length equals the searched name's length and all
bytes agree; slots with inode number 0 or a non-matching name are skipped,
and the first match in slot order wins. -/
theorem c8_find_entry_in_block_spec (entries : List DirEntry) (target : List Nat) :
    (∀ i, vvsfs_find_entry_in_block entries target = some i ↔
      (∃ e, entries.get? i = some e ∧ entryMatches e target) ∧
        ∀ e' ∈ entries.take i, ¬entryMatches e' target)
    ∧ (vvsfs_find_entry_in_block entries target = none ↔
      ∀ e ∈ entries, ¬entryMatches e target) := by
  constructor
  · intro i
    rw [vvsfs_find_entry_in_block, findEntryFrom_some_iff]
    constructor
    · rintro ⟨k, hik, hm, hfirst⟩
      have : i = k := by omega
      subst this
      exact ⟨hm, hfirst⟩
    · rintro ⟨hm, hfirst⟩
      exact ⟨i, by omega, hm, hfirst⟩
  · rw [vvsfs_find_entry_in_block, findEntryFrom_none_iff]

theorem c8_find_entry_in_block_spec_witness :
    vvsfs_find_entry_in_block c8_entries [98] = some 2 :=
  ((c8_find_entry_in_block_spec c8_entries [98]).1 2).mpr (by decide)

/-- C10: rmdir refuses with `-ENOTEMPTY` exactly when `vvsfs_empty_dir`
returns 0; the check returns `-ENOTDIR` on a non-directory and `-EIO` when a
block read fails; and any negative return — an error — makes rmdir proceed
to unlink the directory as though it were empty. -/
theorem c10_rmdir_swallows_empty_dir_errors (d : DirState) :
    (vvsfs_rmdir_check d = .notEmpty ↔ vvsfs_empty_dir d = 0)
    ∧ (d.isDir = false → vvsfs_empty_dir d = -20)
    ∧ (d.isDir = true → 0 < d.i_db_count → d.blocks.getD 0 none = none →
      vvsfs_empty_dir d = -5)
    ∧ (vvsfs_empty_dir d < 0 → vvsfs_rmdir_check d = .proceeds) := by
  refine ⟨?_, ?_, ?_, ?_⟩
  · unfold vvsfs_rmdir_check
    by_cases h : vvsfs_empty_dir d = 0
    · simp [h]
    · simp [h]
  · intro h
    unfold vvsfs_empty_dir
    rw [if_pos h]
  · intro hdir hcount hblock
    unfold vvsfs_empty_dir
    rw [if_neg (by simp [hdir])]
    obtain ⟨m, hm⟩ : ∃ m, d.i_db_count = m + 1 := ⟨d.i_db_count - 1, by omega⟩
    rw [hm, List.range_succ_eq_map]
    rw [emptyDirGo, hblock]
  · intro h
    unfold vvsfs_rmdir_check
    rw [if_neg (by omega)]

theorem c10_rmdir_swallows_empty_dir_errors_witness :
    vvsfs_empty_dir c10_dir = -5 ∧ vvsfs_rmdir_check c10_dir = .proceeds :=
  ⟨(c10_rmdir_swallows_empty_dir_errors c10_dir).2.2.1 rfl (by decide) rfl,
   (c10_rmdir_swallows_empty_dir_errors c10_dir).2.2.2 (by
     rw [(c10_rmdir_swallows_empty_dir_errors c10_dir).2.2.1 rfl (by decide) rfl]
     decide)⟩

/-- C4 counterexample: the claim declares the slot `("." , inode 5)` of a
directory with inode 5 reserved, but `IS_NON_RESERVED_DENTRY` evaluates to
non-reserved on it — the disjunct `name[1] != '.'` is true for "." and
defeats the `(!name[1] && inumber != i_ino)` case — so the emptiness test
counts it and reports the directory non-empty (returns 0). -/
theorem c4_counterexample_dot_self :
    c4_claim_reserved c4_dot_name 5 5 = true
    ∧ is_non_reserved_dentry c4_dot_name 5 5 = true
    ∧ vvsfs_dir_only_reserved [⟨c4_dot_name, 5⟩] 5 = false
    ∧ vvsfs_empty_dir c4_dir = 0 := by
  decide

theorem emptyDirGo_eq_zero_iff (d : DirState) :
    ∀ idxs : List Nat, (∀ i ∈ idxs, d.blocks.getD i none ≠ none) →
      (emptyDirGo d idxs = 0 ↔ ∃ i ∈ idxs, ∃ entries,
        d.blocks.getD i none = some entries ∧
          vvsfs_dir_only_reserved (entries.take (examinedCount d i)) d.i_ino = false) := by
  intro idxs
  induction idxs with
  | nil => simp [emptyDirGo]
  | cons i rest ih =>
    intro hreads
    obtain ⟨entries, hE⟩ : ∃ entries, d.blocks.getD i none = some entries := by
      rcases h : d.blocks.getD i none with _ | entries
      · exact absurd h (hreads i (by simp))
      · exact ⟨entries, rfl⟩
    simp only [emptyDirGo, hE]
    by_cases hres : vvsfs_dir_only_reserved (entries.take (examinedCount d i)) d.i_ino
    · rw [if_pos hres, ih (fun j hj => hreads j (List.mem_cons_of_mem i hj))]
      constructor
      · rintro ⟨j, hj, ej, hEj, hnr⟩
        exact ⟨j, List.mem_cons_of_mem i hj, ej, hEj, hnr⟩
      · rintro ⟨j, hj, ej, hEj, hnr⟩
        rcases List.mem_cons.mp hj with rfl | hj'
        · rw [hE] at hEj
          cases hEj
          exact absurd hres (by simp [hnr])
        · exact ⟨j, hj', ej, hEj, hnr⟩
    · rw [if_neg hres]
      constructor
      · intro _
        exact ⟨i, by simp, entries, hE, by simpa using hres⟩
      · intro _
        rfl

theorem vvsfs_dir_only_reserved_eq_false_iff (entries : List DirEntry) (dirIno : Nat) :
    vvsfs_dir_only_reserved entries dirIno = false ↔
      ∃ e ∈ entries, is_non_reserved_dentry e.name e.inode_number dirIno = true := by
  unfold vvsfs_dir_only_reserved
  rw [List.all_eq_false]
  constructor
  · rintro ⟨e, he, hne⟩
    exact ⟨e, he, by simpa using hne⟩
  · rintro ⟨e, he, hne⟩
    exact ⟨e, he, by simp [hne]⟩

/-- C4 amended: a slot is treated as reserved exactly when its inode number
is 0 or its name field starts with the bytes '.', '.', NUL (the name ".."),
— the "."-with-own-inode case of the claim is counted as non-reserved — and,
provided every examined block read succeeds, the directory is reported
non-empty (return 0) iff some examined slot is non-reserved. -/
theorem c4_amended_reserved_dentry_spec :
    (∀ name inumber dirIno,
      is_non_reserved_dentry name inumber dirIno =
        (inumber != 0 &&
          !(name.getD 0 0 == 46 && name.getD 1 0 == 46 && name.getD 2 0 == 0)))
    ∧ (∀ (entries : List DirEntry) (dirIno : Nat),
      vvsfs_dir_only_reserved entries dirIno = false ↔
        ∃ e ∈ entries, is_non_reserved_dentry e.name e.inode_number dirIno = true)
    ∧ (∀ d : DirState, d.isDir = true →
      (∀ i ∈ List.range d.i_db_count, d.blocks.getD i none ≠ none) →
      (vvsfs_empty_dir d = 0 ↔ ∃ i ∈ List.range d.i_db_count, ∃ entries,
        d.blocks.getD i none = some entries ∧
          ∃ e ∈ entries.take (examinedCount d i),
            is_non_reserved_dentry e.name e.inode_number d.i_ino = true)) := by
  have key : ∀ n0 n1 n2 i di : Nat,
      ((n0 != 46 || (n1 == 0 && i != di) || n1 != 46 || n2 != 0) : Bool) =
        !(n0 == 46 && n1 == 46 && n2 == 0) := by
    intro n0 n1 n2 i di
    by_cases h1 : n1 = 46
    · subst h1
      cases hb : n0 == 46 <;> cases hc : n2 == 0 <;> simp_all
    · have hf : (n1 == 46) = false := by simp [h1]
      simp [hf]
      exact Or.inl (Or.inr h1)
  refine ⟨?_, ?_, ?_⟩
  · intro name inumber dirIno
    unfold is_non_reserved_dentry
    rw [key]
  · intro entries dirIno
    exact vvsfs_dir_only_reserved_eq_false_iff entries dirIno
  · intro d hdir hreads
    have : vvsfs_empty_dir d = emptyDirGo d (List.range d.i_db_count) := by
      unfold vvsfs_empty_dir
      rw [if_neg (by simp [hdir])]
    rw [this, emptyDirGo_eq_zero_iff d (List.range d.i_db_count) hreads]
    constructor
    · rintro ⟨i, hi, entries, hE, hres⟩
      rcases (vvsfs_dir_only_reserved_eq_false_iff (entries.take (examinedCount d i))
        d.i_ino).mp hres with ⟨e, he, hne⟩
      exact ⟨i, hi, entries, hE, e, he, hne⟩
    · rintro ⟨i, hi, entries, hE, e, he, hne⟩
      exact ⟨i, hi, entries, hE,
        (vvsfs_dir_only_reserved_eq_false_iff (entries.take (examinedCount d i))
          d.i_ino).mpr ⟨e, he, hne⟩⟩

theorem c4_amended_reserved_dentry_spec_witness :
    vvsfs_empty_dir c4w_dir = 0 :=
  (c4_amended_reserved_dentry_spec.2.2 c4w_dir rfl (by decide)).mpr (by decide)

/-- C5 counterexample: with the target existing, `NOREPLACE` set, and source
and target the same inode, the claim demands `-EEXIST`, but the source
checks the same-inode case first and returns success. -/
theorem c5_counterexample_noreplace_same_inode :
    vvsfs_rename_check c5_req = .noop ∧ RenameOutcome.noop ≠ .err (-17) := by
  decide

/-- C5 amended: when the target exists and `NOREPLACE` is set the rename
fails with `-EEXIST` only if the target and source are *different* inodes
(with valid flags and a name of legal length); when they are the same inode
the same-inode no-op wins even with `NOREPLACE` set, because that check
precedes the `NOREPLACE` check. -/
theorem c5_amended_noreplace_after_same_inode (r : RenameReq) :
    (r.flag_exchange = false → r.flag_whiteout = false → r.new_exists = true →
      r.new_ino = r.old_ino → vvsfs_rename_check r = .noop)
    ∧ (r.flag_exchange = false → r.flag_whiteout = false → r.new_exists = true →
      r.new_ino ≠ r.old_ino → r.new_name_len ≤ VVSFS_MAXNAME → r.flag_noreplace = true →
      vvsfs_rename_check r = .err (-17)) := by
  constructor
  · intro h1 h2 h3 h4
    unfold vvsfs_rename_check
    rw [if_neg (by simp [h1, h2]), if_pos (by simp [h3, h4])]
  · intro h1 h2 h3 h4 h5 h6
    unfold vvsfs_rename_check
    rw [if_neg (by simp [h1, h2]), if_neg (by simp [h3, h4]), if_neg (by omega),
      if_pos (by simp [h3, h6])]

theorem c5_amended_noreplace_after_same_inode_witness :
    vvsfs_rename_check c5_req = .noop ∧ vvsfs_rename_check c5w_req = .err (-17) :=
  ⟨(c5_amended_noreplace_after_same_inode c5_req).1 rfl rfl rfl rfl,
   (c5_amended_noreplace_after_same_inode c5w_req).2 rfl rfl rfl (by decide) (by decide) rfl⟩

/-! ## Claim C9: bit-level groundwork for the bitmap allocator -/

theorem and_two_pow_eq_zero_iff (b k : Nat) : b &&& 2 ^ k = 0 ↔ b.testBit k = false := by
  constructor
  · intro h
    have h2 := congrArg (fun x => Nat.testBit x k) h
    simpa [Nat.testBit_and, Nat.testBit_two_pow] using h2
  · intro h
    apply Nat.eq_of_testBit_eq
    intro i
    rw [Nat.testBit_and, Nat.zero_testBit, Nat.testBit_two_pow]
    by_cases hik : k = i
    · subst hik
      simp [h]
    · simp [hik]

theorem mapBit_eq_two_pow (j : Nat) (h : j < 8) : mapBit j = 2 ^ (7 - j) := by
  interval_cases j <;> rfl

theorem mapTestPos_eq_testBit (m : List Nat) (q : Nat) :
    mapTestPos m q = (m.getD (q / 8) 0).testBit (7 - q % 8) := by
  have h8 : q % 8 < 8 := Nat.mod_lt _ (by decide)
  unfold mapTestPos
  rw [mapBit_eq_two_pow _ h8]
  generalize m.getD (q / 8) 0 = x
  cases ht : x.testBit (7 - q % 8)
  · have h0 : x &&& 2 ^ (7 - q % 8) = 0 := (and_two_pow_eq_zero_iff _ _).mpr ht
    simp [h0]
  · have h0 : ¬(x &&& 2 ^ (7 - q % 8) = 0) := by
      intro hc
      rw [(and_two_pow_eq_zero_iff _ _).mp hc] at ht
      cases ht
    simpa [bne_iff_ne] using h0

theorem getD_set_self (l : List Nat) (i v : Nat) (h : i < l.length) :
    (l.set i v).getD i 0 = v := by
  simp [List.getD_eq_getElem?_getD, List.getElem?_set_self h]

theorem getD_set_ne (l : List Nat) (i j v : Nat) (h : i ≠ j) :
    (l.set i v).getD j 0 = l.getD j 0 := by
  simp [List.getD_eq_getElem?_getD, List.getElem?_set_ne h]

theorem testBit_or_mapBit (b j k : Nat) (hj : j < 8) :
    (b ||| mapBit j).testBit k = (b.testBit k || decide (7 - j = k)) := by
  rw [mapBit_eq_two_pow _ hj, Nat.testBit_or, Nat.testBit_two_pow]

theorem testBit_and_not_mapBit (b j k : Nat) (hj : j < 8) (hk : k < 8) :
    (b &&& (255 ^^^ mapBit j)).testBit k = (b.testBit k && !decide (7 - j = k)) := by
  rw [mapBit_eq_two_pow _ hj, Nat.testBit_and, Nat.testBit_xor]
  have h255 : (255 : Nat) = 2 ^ 8 - 1 := by norm_num
  rw [h255, Nat.testBit_two_pow_sub_one, Nat.testBit_two_pow]
  simp [hk]

theorem mapTestPos_set_bit (m : List Nat) (i j q : Nat) (hi : i < m.length) (hj : j < 8) :
    mapTestPos (m.set i (m.getD i 0 ||| mapBit j)) q = (mapTestPos m q || q == i * 8 + j) := by
  rw [mapTestPos_eq_testBit, mapTestPos_eq_testBit]
  by_cases hb : q / 8 = i
  · rw [hb, getD_set_self _ _ _ hi, testBit_or_mapBit _ _ _ hj]
    by_cases hq : q = i * 8 + j
    · subst hq
      have hqm : (i * 8 + j) % 8 = j := by omega
      rw [hqm]
      simp
    · have hne : ¬(7 - j = 7 - q % 8) := by omega
      simp [hne, hq]
  · rw [getD_set_ne _ _ _ _ (fun hh => hb hh.symm)]
    have hq : q ≠ i * 8 + j := by omega
    simp [hq]

theorem mapTestPos_free_block (m : List Nat) (p q : Nat) (hp : p / 8 < m.length) :
    mapTestPos (vvsfs_free_block m p) q = (mapTestPos m q && !(q == p)) := by
  unfold vvsfs_free_block
  rw [mapTestPos_eq_testBit, mapTestPos_eq_testBit]
  have hp8 : p % 8 < 8 := Nat.mod_lt _ (by decide)
  by_cases hb : q / 8 = p / 8
  · rw [hb, getD_set_self _ _ _ hp, testBit_and_not_mapBit _ _ _ hp8 (by omega)]
    by_cases hq : q = p
    · subst hq
      simp
    · have hne : ¬(7 - p % 8 = 7 - q % 8) := by omega
      simp [hne, hq]
  · rw [getD_set_ne _ _ _ _ (fun hh => hb hh.symm)]
    have hq : q ≠ p := by omega
    simp [hq]

theorem countP_range_eq_add_one {n q : Nat} (f g : Nat → Bool) (hq : q < n)
    (hfq : f q = false) (hgq : g q = true) (hother : ∀ p, p ≠ q → g p = f p) :
    (List.range n).countP g = (List.range n).countP f + 1 := by
  induction n with
  | zero => omega
  | succ m ih =>
    rw [List.range_succ, List.countP_append, List.countP_append]
    by_cases hqm : q = m
    · have hfg : (List.range m).countP g = (List.range m).countP f := by
        apply List.countP_congr
        intro p hp
        have hpq : p ≠ q := by
          have := List.mem_range.mp hp
          omega
        rw [hother p hpq]
      have hgm : g m = true := hqm ▸ hgq
      have hfm : f m = false := hqm ▸ hfq
      rw [hfg]
      simp [List.countP_cons, hgm, hfm]
    · have hq' : q < m := by omega
      rw [ih hq']
      have hm : g m = f m := hother m (by omega)
      simp [List.countP_cons, hm]
      omega

theorem scanBitsFrom_some (b : Nat) (s : Bool) :
    ∀ (fuel j j' : Nat), scanBitsFrom b s j fuel = some j' →
      j ≤ j' ∧ j' < j + fuel ∧
        ((!(s && j' == 0)) && (b &&& mapBit j' == 0)) = true ∧
        ∀ k, j ≤ k → k < j' → ((!(s && k == 0)) && (b &&& mapBit k == 0)) = false := by
  intro fuel
  induction fuel with
  | zero =>
    intro j j' h
    simp [scanBitsFrom] at h
  | succ n ih =>
    intro j j' h
    rw [scanBitsFrom] at h
    by_cases hc : ((!(s && j == 0)) && (b &&& mapBit j == 0)) = true
    · rw [if_pos hc] at h
      cases h
      exact ⟨Nat.le_refl j, by omega, hc, fun k hk1 hk2 => by omega⟩
    · rw [if_neg hc] at h
      obtain ⟨h1, h2, h3, h4⟩ := ih (j + 1) j' h
      refine ⟨by omega, by omega, h3, fun k hk1 hk2 => ?_⟩
      by_cases hkj : k = j
      · subst hkj
        exact Bool.eq_false_iff.mpr hc
      · exact h4 k (by omega) hk2

theorem scanBitsFrom_none (b : Nat) (s : Bool) :
    ∀ (fuel j : Nat), scanBitsFrom b s j fuel = none →
      ∀ k, j ≤ k → k < j + fuel → ((!(s && k == 0)) && (b &&& mapBit k == 0)) = false := by
  intro fuel
  induction fuel with
  | zero =>
    intro j _ k hk1 hk2
    omega
  | succ n ih =>
    intro j h k hk1 hk2
    rw [scanBitsFrom] at h
    by_cases hc : ((!(s && j == 0)) && (b &&& mapBit j == 0)) = true
    · rw [if_pos hc] at h
      cases h
    · rw [if_neg hc] at h
      by_cases hkj : k = j
      · subst hkj
        exact Bool.eq_false_iff.mpr hc
      · exact ih (j + 1) h k (by omega) (by omega)

theorem scanBytesFrom_some :
    ∀ (l : List Nat) (i0 i j : Nat), scanBytesFrom l i0 = some (i, j) →
      i0 ≤ i ∧ i < i0 + l.length ∧
        scanBitsFrom (l.getD (i - i0) 0) (i == 0) 0 8 = some j ∧
        ∀ i', i0 ≤ i' → i' < i → scanBitsFrom (l.getD (i' - i0) 0) (i' == 0) 0 8 = none := by
  intro l
  induction l with
  | nil =>
    intro i0 i j h
    simp [scanBytesFrom] at h
  | cons b rest ih =>
    intro i0 i j h
    rw [scanBytesFrom] at h
    cases hscan : scanBitsFrom b (i0 == 0) 0 8 with
    | some j0 =>
      rw [hscan] at h
      cases h
      refine ⟨Nat.le_refl _, by simp only [List.length_cons]; omega, ?_, ?_⟩
      · rw [Nat.sub_self]
        simpa using hscan
      · intro i' h1 h2
        omega
    | none =>
      rw [hscan] at h
      obtain ⟨h1, h2, h3, h4⟩ := ih (i0 + 1) i j h
      refine ⟨by omega, by simp only [List.length_cons]; omega, ?_, ?_⟩
      · have hgt : i - i0 = (i - (i0 + 1)) + 1 := by omega
        rw [hgt]
        simpa using h3
      · intro i' hi1 hi2
        by_cases hii : i' = i0
        · subst hii
          rw [Nat.sub_self]
          simpa using hscan
        · have hgt : i' - i0 = (i' - (i0 + 1)) + 1 := by omega
          rw [hgt]
          simpa using h4 i' (by omega) hi2

theorem scanBytesFrom_none :
    ∀ (l : List Nat) (i0 : Nat), scanBytesFrom l i0 = none →
      ∀ i', i0 ≤ i' → i' < i0 + l.length →
        scanBitsFrom (l.getD (i' - i0) 0) (i' == 0) 0 8 = none := by
  intro l
  induction l with
  | nil =>
    intro i0 _ i' h1 h2
    simp only [List.length_nil] at h2
    omega
  | cons b rest ih =>
    intro i0 h i' h1 h2
    rw [scanBytesFrom] at h
    cases hscan : scanBitsFrom b (i0 == 0) 0 8 with
    | some j0 =>
      rw [hscan] at h
      cases h
    | none =>
      rw [hscan] at h
      by_cases hii : i' = i0
      · subst hii
        rw [Nat.sub_self]
        simpa using hscan
      · have hgt : i' - i0 = (i' - (i0 + 1)) + 1 := by omega
        rw [hgt]
        have := ih (i0 + 1) h i' (by omega) (by simp only [List.length_cons] at h2; omega)
        simpa using this

theorem testPos_true_of_scan_false (m : List Nat) (q : Nat)
    (hcond : ((!((q / 8 == 0) && (q % 8 == 0))) &&
      (m.getD (q / 8) 0 &&& mapBit (q % 8) == 0)) = false)
    (hq : 1 ≤ q) : mapTestPos m q = true := by
  rcases Bool.and_eq_false_iff.mp hcond with hL | hR
  · exfalso
    simp only [Bool.not_eq_false', Bool.and_eq_true, beq_iff_eq] at hL
    omega
  · unfold mapTestPos
    simp only [beq_eq_false_iff_ne, ne_eq] at hR
    simpa [bne_iff_ne] using hR

theorem vvsfs_find_free_block_succ_spec (m : List Nat) (p : Nat) (m' : List Nat)
    (h : vvsfs_find_free_block m = (p, m')) (hp : p ≠ 0) :
    1 ≤ p ∧ p < 8 * m.length ∧ mapTestPos m p = false ∧
      (∀ q, 1 ≤ q → q < p → mapTestPos m q = true) ∧
      (∀ q, mapTestPos m' q = (mapTestPos m q || q == p)) ∧ m'.length = m.length := by
  unfold vvsfs_find_free_block at h
  cases hscan : scanBytesFrom m 0 with
  | none =>
    rw [hscan] at h
    cases h
    exact absurd rfl hp
  | some ij =>
    obtain ⟨i, j⟩ := ij
    rw [hscan] at h
    cases h
    obtain ⟨_, h2, h3, h4⟩ := scanBytesFrom_some m 0 i j hscan
    rw [Nat.sub_zero] at h3
    obtain ⟨_, g2, g3, g4⟩ := scanBitsFrom_some (m.getD i 0) (i == 0) 8 0 j h3
    have hj8 : j < 8 := by omega
    have hilen : i < m.length := by omega
    rw [Bool.and_eq_true] at g3
    obtain ⟨gskip, gbit⟩ := g3
    have hns : ¬(i = 0 ∧ j = 0) := by
      rintro ⟨hi0, hj0⟩
      subst hi0
      subst hj0
      simp at gskip
    have hp1 : 1 ≤ i * 8 + j := by
      by_cases hi0 : i = 0
      · by_cases hj0 : j = 0
        · exact absurd ⟨hi0, hj0⟩ hns
        · omega
      · omega
    have hbit0 : m.getD i 0 &&& mapBit j = 0 := by simpa using gbit
    have htest : mapTestPos m (i * 8 + j) = false := by
      rw [mapTestPos_eq_testBit]
      have hdiv : (i * 8 + j) / 8 = i := by omega
      have hmod : (i * 8 + j) % 8 = j := by omega
      rw [hdiv, hmod]
      rw [mapBit_eq_two_pow _ hj8] at hbit0
      exact (and_two_pow_eq_zero_iff _ _).mp hbit0
    refine ⟨hp1, by omega, htest, ?_, ?_, by simp⟩
    · intro q hq1 hq2
      by_cases hqi : q / 8 = i
      · have hqj : q % 8 < j := by omega
        have hcond := g4 (q % 8) (by omega) hqj
        rw [← hqi] at hcond
        exact testPos_true_of_scan_false m q hcond hq1
      · have hqlt : q / 8 < i := by omega
        have hbyte := h4 (q / 8) (by omega) hqlt
        rw [Nat.sub_zero] at hbyte
        have hcond := scanBitsFrom_none (m.getD (q / 8) 0) (q / 8 == 0) 8 0 hbyte
          (q % 8) (by omega) (by omega)
        exact testPos_true_of_scan_false m q hcond hq1
    · intro q
      exact mapTestPos_set_bit m i j q hilen hj8

theorem vvsfs_find_free_block_zero_spec (m m' : List Nat)
    (h : vvsfs_find_free_block m = (0, m')) :
    m' = m ∧ ∀ q, 1 ≤ q → q < 8 * m.length → mapTestPos m q = true := by
  unfold vvsfs_find_free_block at h
  cases hscan : scanBytesFrom m 0 with
  | some ij =>
    obtain ⟨i, j⟩ := ij
    rw [hscan] at h
    have hij : i * 8 + j = 0 := congrArg Prod.fst h
    obtain ⟨_, h2, h3, h4⟩ := scanBytesFrom_some m 0 i j hscan
    rw [Nat.sub_zero] at h3
    obtain ⟨_, g2, g3, g4⟩ := scanBitsFrom_some (m.getD i 0) (i == 0) 8 0 j h3
    rw [Bool.and_eq_true] at g3
    obtain ⟨gskip, -⟩ := g3
    have hi0 : i = 0 := by omega
    have hj0 : j = 0 := by omega
    subst hi0
    subst hj0
    simp at gskip
  | none =>
    rw [hscan] at h
    cases h
    refine ⟨rfl, ?_⟩
    intro q hq1 hq2
    have hbyte := scanBytesFrom_none m 0 hscan (q / 8) (by omega) (by omega)
    rw [Nat.sub_zero] at hbyte
    have hcond := scanBitsFrom_none (m.getD (q / 8) 0) (q / 8 == 0) 8 0 hbyte
      (q % 8) (by omega) (by omega)
    exact testPos_true_of_scan_false m q hcond hq1

theorem free_block_length (m : List Nat) (p : Nat) :
    (vvsfs_free_block m p).length = m.length := by
  simp [vvsfs_free_block]

theorem mapPopCount_reserve (m : List Nat) (p : Nat) (m' : List Nat)
    (h : vvsfs_find_free_block m = (p, m')) (hp : p ≠ 0) :
    mapPopCount m' = mapPopCount m + 1 := by
  obtain ⟨h1, h2, h3, _, h5, h6⟩ := vvsfs_find_free_block_succ_spec m p m' h hp
  unfold mapPopCount
  rw [h6]
  apply countP_range_eq_add_one (mapTestPos m) (mapTestPos m') h2 h3
  · rw [h5 p, h3]
    simp
  · intro q hq
    rw [h5 q]
    have : (q == p) = false := by simpa using hq
    simp [this]

theorem mapPopCount_free (m : List Nat) (p : Nat) (hp : p < 8 * m.length)
    (hset : mapTestPos m p = true) :
    mapPopCount (vvsfs_free_block m p) + 1 = mapPopCount m := by
  unfold mapPopCount
  rw [free_block_length]
  have hdiv : p / 8 < m.length := by omega
  have key := countP_range_eq_add_one (fun q => mapTestPos (vvsfs_free_block m p) q)
    (fun q => mapTestPos m q) hp
    (by
      show mapTestPos (vvsfs_free_block m p) p = false
      rw [mapTestPos_free_block m p p hdiv, hset]
      simp)
    hset
    (fun q hq => by
      show mapTestPos m q = mapTestPos (vvsfs_free_block m p) q
      rw [mapTestPos_free_block m p q hdiv]
      have hqp : (q == p) = false := by simpa using hq
      simp [hqp])
  omega

theorem bmRun_popcount :
    ∀ (ops : List BmOp) (m : List Nat), bmValid m ops = true →
      mapPopCount (bmRun m ops) + countFrees ops = mapPopCount m + countReserves ops := by
  intro ops
  induction ops with
  | nil =>
    intro m _
    simp [bmRun, countFrees, countReserves]
  | cons op rest ih =>
    intro m hv
    cases op with
    | reserve =>
      rw [bmValid, Bool.and_eq_true] at hv
      obtain ⟨hp, hrest⟩ := hv
      have hp' : (vvsfs_find_free_block m).1 ≠ 0 := by simpa [bne_iff_ne] using hp
      have hpop := mapPopCount_reserve m (vvsfs_find_free_block m).1
        (vvsfs_find_free_block m).2 rfl hp'
      have hih := ih _ hrest
      rw [bmRun, countFrees, countReserves]
      omega
    | free p =>
      rw [bmValid, Bool.and_eq_true, Bool.and_eq_true, Bool.and_eq_true] at hv
      obtain ⟨⟨⟨hp0, hplt⟩, hset⟩, hrest⟩ := hv
      have hplt' : p < 8 * m.length := of_decide_eq_true hplt
      have hpop := mapPopCount_free m p hplt' hset
      have hih := ih _ hrest
      rw [bmRun, countFrees, countReserves]
      omega

theorem freshMap_length (len : Nat) : (freshMap len).length = len := by
  simp [freshMap]

theorem freshMap_popcount (len : Nat) (h : 0 < len) : mapPopCount (freshMap len) = 1 := by
  have htest : ∀ q, mapTestPos (freshMap len) q = (q == 0) := by
    intro q
    rw [mapTestPos_eq_testBit]
    unfold freshMap
    by_cases hq : q / 8 = 0
    · rw [hq, getD_set_self _ _ _ (by simpa using h)]
      have h128 : (VVSFS_SET_MAP_BIT : Nat) = 2 ^ 7 := by decide
      rw [h128, Nat.testBit_two_pow]
      by_cases hq0 : q = 0
      · subst hq0
        simp
      · have hm : ¬(7 = 7 - q % 8) := by omega
        simp [hm, hq0]
    · rw [getD_set_ne _ _ _ _ (fun hh => hq hh.symm)]
      have hz : (List.replicate len 0).getD (q / 8) 0 = 0 := by
        rcases Nat.lt_or_ge (q / 8) len with hlt | hge
        · simp [List.getD_eq_getElem?_getD, List.getElem?_replicate, hlt]
        · simp [List.getD_eq_getElem?_getD, List.getElem?_replicate,
            Nat.not_lt.mpr hge]
      rw [hz]
      have hq0 : ¬(q = 0) := by omega
      simp [Nat.zero_testBit, hq0]
  unfold mapPopCount
  rw [freshMap_length]
  have hzero : (List.range (8 * len)).countP (fun _ => false) = 0 := by
    simp
  have key := countP_range_eq_add_one (fun _ => false) (fun p => mapTestPos (freshMap len) p)
    (show (0 : Nat) < 8 * len by omega) rfl
    (by
      show mapTestPos (freshMap len) 0 = true
      rw [htest 0]
      rfl)
    (fun p hp => by
      show mapTestPos (freshMap len) p = false
      rw [htest p]
      simpa using hp)
  omega

/-- C9: the bitmap reservation invariant.  (1) For any well-formed sequence
of reserve/free calls on a fresh bitmap (every reserve succeeds, every free
hits a set position other than the reserved position 0), the number of set
bits equals (reservations − frees) + 1, the 1 for the reserved bit 0 —
stated additively.  (2) A successful reserve returns the *first* clear
position, scanning bytes in order and bits MSB-first while skipping position
0: the position was clear, every position between 1 and it was set, and the
new map has exactly that bit set in addition.  (3) A reserve returns 0 only
when no position ≥ 1 is free, and then leaves the map unchanged. -/
theorem c9_bitmap_reservation_invariant :
    (∀ (len : Nat) (ops : List BmOp), 0 < len → bmValid (freshMap len) ops = true →
      mapPopCount (bmRun (freshMap len) ops) + countFrees ops = 1 + countReserves ops)
    ∧ (∀ (m : List Nat) (p : Nat) (m' : List Nat),
      vvsfs_find_free_block m = (p, m') → p ≠ 0 →
      1 ≤ p ∧ p < 8 * m.length ∧ mapTestPos m p = false ∧
        (∀ q, 1 ≤ q → q < p → mapTestPos m q = true) ∧
        (∀ q, mapTestPos m' q = (mapTestPos m q || q == p)))
    ∧ (∀ (m m' : List Nat), vvsfs_find_free_block m = (0, m') →
      m' = m ∧ ∀ q, 1 ≤ q → q < 8 * m.length → mapTestPos m q = true) := by
  refine ⟨?_, ?_, ?_⟩
  · intro len ops hlen hvalid
    have := bmRun_popcount ops (freshMap len) hvalid
    rw [freshMap_popcount len hlen] at this
    omega
  · intro m p m' h hp
    obtain ⟨h1, h2, h3, h4, h5, _⟩ := vvsfs_find_free_block_succ_spec m p m' h hp
    exact ⟨h1, h2, h3, h4, h5⟩
  · intro m m' h
    exact vvsfs_find_free_block_zero_spec m m' h

theorem c9_bitmap_reservation_invariant_witness :
    mapPopCount (bmRun (freshMap 1) c9_ops) + countFrees c9_ops = 1 + countReserves c9_ops
    ∧ mapTestPos [129] 1 = false ∧ mapTestPos [193] 1 = true :=
  ⟨c9_bitmap_reservation_invariant.1 1 c9_ops (by decide) (by decide),
   (c9_bitmap_reservation_invariant.2.1 [129] 1 [193] (by decide) (by decide)).2.2.1,
   by
     have hs := (c9_bitmap_reservation_invariant.2.1 [129] 1 [193] (by decide)
       (by decide)).2.2.2.2 1
     rw [hs]
     decide⟩

end VVSFS
